import Mathlib

/-!
Shallow embedding of `mcu_safe_array.h` (namespace `safearray`).

Memory is modelled element-addressed: a heap `Nat → T` of `T`-cells.  A
pointer is a natural-number address into that heap.  Each C++ class is a
structure holding the pointer(s) it stores; mutating methods become
functions from memory to memory.  The compile-time `static_assert` gates
(which decide whether a template instantiation compiles) are modelled as
`Prop`-valued definitions collecting exactly the asserts that the C++
compiler would evaluate for that instantiation.
-/

namespace safearray

/-- Element-addressed memory: the heap of `T`-cells in which the C arrays live. -/
def Mem (T : Type) : Type := Nat → T

/-- A single store `mem[a] = v`. -/
def Mem.store {T : Type} (mem : Mem T) (a : Nat) (v : T) : Mem T :=
  fun b => if b = a then v else mem b

/-- Model of C `memcpy(dest, src, n)` for non-overlapping regions, counted in
elements (the C++ calls pass `sizeBytes() = L2 * sizeof(T)` bytes, i.e. `L2`
elements of the element-addressed heap). -/
def memcpy {T : Type} (dest src n : Nat) (mem : Mem T) : Mem T :=
  fun a => if dest ≤ a ∧ a < dest + n then mem (src + (a - dest)) else mem a

/-- The ascending write loop `for (i = p; n iterations) mem[i] = v`, used by
`Slice::fill` (which writes indices `0..L-1` in ascending order). -/
def fillLoop {T : Type} (v : T) : Nat → Nat → Mem T → Mem T
  | _, 0, mem => mem
  | p, n+1, mem => fillLoop v (p+1) n (mem.store p v)

/-- `SLICE_METH_ASSERTS()` (header lines 104-109): the three static asserts
gating every sub-view method: `Start <= L`, `End <= L`, `End >= Start`. -/
def sliceMethAsserts (L st en : Nat) : Prop := st ≤ L ∧ en ≤ L ∧ en ≥ st

/-- `DATA_METH_ASSERTS()` (header lines 111-114): `Offset < L`. -/
def dataMethAsserts (L off : Nat) : Prop := off < L

/-- `CArrayPtr<T>` (header lines 127-160): a pointer plus a runtime size. -/
structure CArrayPtr (T : Type) where
  _data : Nat
  _size : Nat

/-- `CArrayPtr::size()`. -/
def CArrayPtr.size {T : Type} (p : CArrayPtr T) : Nat := p._size

/-- `CArrayPtr::data()`. -/
def CArrayPtr.data {T : Type} (p : CArrayPtr T) : Nat := p._data

/-- `CSlice<T, L>` (header lines 175-274): a const pointer to `L` contiguous
`T`-cells.  Only the pointer is stored; `T` and `L` are compile-time tags. -/
structure CSlice (T : Type) (L : Nat) where
  _data : Nat

/-- `CSlice::cdata<Offset>()` body: `_data + Offset`. -/
def CSlice.cdata {T : Type} {L : Nat} (s : CSlice T L) (off : Nat) : Nat :=
  s._data + off

/-- `CSlice::operator[](i)`: read the cell at `_data + i`. -/
def CSlice.get {T : Type} {L : Nat} (s : CSlice T L) (mem : Mem T) (i : Nat) : T :=
  mem (s._data + i)

/-- `CSlice::operator&()`: erase to a `CArrayPtr(_data, L)`.  The body performs
no store, so the memory is passed through unchanged. -/
def CSlice.opAmp {T : Type} {L : Nat} (s : CSlice T L) (mem : Mem T) :
    CArrayPtr T × Mem T :=
  (⟨s._data, L⟩, mem)

/-- `CSlice::cslice<Start, End>()` body: `CSlice<T, End - Start>(cdata<Start>())`. -/
def CSlice.cslice {T : Type} {L : Nat} (s : CSlice T L) (st en : Nat) :
    CSlice T (en - st) :=
  ⟨s.cdata st⟩

/-- `CSlice::size()`. -/
def CSlice.size {T : Type} {L : Nat} (_s : CSlice T L) : Nat := L

/-- `CSlice::sizeBytes()` body: `L * sizeof(T)`; `szT` stands for `sizeof(T)`. -/
def sizeBytes (L szT : Nat) : Nat := L * szT

/-- Compile gate of `CSlice<T,L>::cslice<Start,End>`: it instantiates
`SLICE_METH_ASSERTS` and also `cdata<Start>` (adding `Start < L`). -/
def cslice_ok (L st en : Nat) : Prop :=
  sliceMethAsserts L st en ∧ dataMethAsserts L st

/-- `Slice<T, L>` (header lines 289-363): mutable variant, inherits `CSlice`. -/
structure Slice (T : Type) (L : Nat) extends CSlice T L

/-- `Slice::data<Offset>()`: delegates to `cdata<Offset>`. -/
def Slice.data {T : Type} {L : Nat} (sl : Slice T L) (off : Nat) : Nat :=
  sl.toCSlice.cdata off

/-- `Slice::fill(val)` body: `for (i = 0; i < L; ++i) (*this)[i] = val`. -/
def Slice.fill {T : Type} {L : Nat} (sl : Slice T L) (v : T) (mem : Mem T) : Mem T :=
  fillLoop v sl._data L mem

/-- `Slice::assign(data)` body: `memcpy(this->data(), data.cdata(), data.sizeBytes())`,
copying `L2` elements.  Compile gate: `static_assert(L2 <= L)`. -/
def Slice.assign {T : Type} {L L2 : Nat} (dest : Slice T L) (src : CSlice T L2)
    (mem : Mem T) : Mem T :=
  memcpy (dest.data 0) (src.cdata 0) L2 mem

/-- `Slice::slice<Start, End>()` body: `Slice<T, End - Start>(this->data() + Start)`. -/
def Slice.slice {T : Type} {L : Nat} (sl : Slice T L) (st en : Nat) :
    Slice T (en - st) :=
  ⟨⟨sl.data 0 + st⟩⟩

/-- Compile gate of `Slice<T,L>::slice<Start,End>`: `SLICE_METH_ASSERTS` plus the
`data()` call, i.e. `cdata<0>`, adding `0 < L`. -/
def slice_ok (L st en : Nat) : Prop :=
  sliceMethAsserts L st en ∧ dataMethAsserts L 0

/-- `Array<T, L>` (header lines 376-480): owns `L` contiguous cells; modelled by
the base address of the owned storage `T _data[L]` inside the heap. -/
structure Array (T : Type) (L : Nat) where
  _data : Nat

/-- `Array::cdata<Offset>()` body: `_data + Offset` (gate: `Offset < L`). -/
def Array.cdata {T : Type} {L : Nat} (a : Array T L) (off : Nat) : Nat :=
  a._data + off

/-- `Array::operator[](i)` (const): read the cell at `_data + i`. -/
def Array.get {T : Type} {L : Nat} (a : Array T L) (mem : Mem T) (i : Nat) : T :=
  mem (a._data + i)

/-- `Array::operator&()`: erase to a `CArrayPtr(_data, L)`; no store performed. -/
def Array.opAmp {T : Type} {L : Nat} (a : Array T L) (mem : Mem T) :
    CArrayPtr T × Mem T :=
  (⟨a._data, L⟩, mem)

/-- `Array::cslice<Start, End>()` body: `CSlice<T, End - Start>(this->_data + Start)`. -/
def Array.cslice {T : Type} {L : Nat} (a : Array T L) (st en : Nat) :
    CSlice T (en - st) :=
  ⟨a._data + st⟩

/-- `Array::slice<Start, End>()` body: `Slice<T, End - Start>(this->_data + Start)`. -/
def Array.slice {T : Type} {L : Nat} (a : Array T L) (st en : Nat) :
    Slice T (en - st) :=
  ⟨⟨a._data + st⟩⟩

/-- Compile gate of `Array<T,L>::cslice<Start,End>`: only `SLICE_METH_ASSERTS`
(it reads `_data` directly, with no `cdata` instantiation). -/
def array_cslice_ok (L st en : Nat) : Prop := sliceMethAsserts L st en

/-- Compile gate of `Array<T,L>::slice<Start,End>`: only `SLICE_METH_ASSERTS`. -/
def array_slice_ok (L st en : Nat) : Prop := sliceMethAsserts L st en

/-- `Array::fill(val)` body: `this->slice().fill(val)` (defaults `Start=0, End=L`). -/
def Array.fill {T : Type} {L : Nat} (a : Array T L) (v : T) (mem : Mem T) : Mem T :=
  (a.slice 0 L).fill v mem

/-- `Array::assign(data)` body: `this->slice().assign(data)`.  Compile gate:
`static_assert(L2 <= L)`. -/
def Array.assign {T : Type} {L L2 : Nat} (a : Array T L) (src : CSlice T L2)
    (mem : Mem T) : Mem T :=
  (a.slice 0 L).assign src mem

/-- `operator<<(Slice<T,L1> dest, CSlice<T,L2> data)` (header lines 503-507):
`dest.assign(data); return dest.slice<L2>();` — the returned remainder is
`dest.slice<L2, L1>()` (the `End` default is `L1`). -/
def Slice.writeShift {T : Type} {L1 L2 : Nat} (dest : Slice T L1)
    (src : CSlice T L2) (mem : Mem T) : Slice T (L1 - L2) × Mem T :=
  (dest.slice L2 L1, dest.assign src mem)

/-- `operator<<(Array<T,L1>& dest, CSlice<T,L2> data)` (header lines 512-515):
`return dest.slice() << data;`. -/
def Array.writeShift {T : Type} {L1 L2 : Nat} (dest : Array T L1)
    (src : CSlice T L2) (mem : Mem T) : Slice T (L1 - L2) × Mem T :=
  (dest.slice 0 L1).writeShift src mem

/-- `ByteArray<L> = Array<unsigned char, L>`; bytes are modelled as `Nat`. -/
abbrev ByteArray (L : Nat) : Type := Array Nat L

/-- Size in bytes of a C array `T[L]` where `szT` stands for `sizeof(T)`. -/
def sizeofCArray (szT L : Nat) : Nat := L * szT

/-- Size of a struct carrying `__attribute__((packed))`: the sum of its field
sizes, with no padding inserted. -/
def sizeofPackedStruct (fieldSizes : List Nat) : Nat := fieldSizes.sum

/-- `sizeof(Array<T, L>)`: `Array` is a packed struct whose only field is the
C array `T _data[L]` (header lines 479-480). -/
def sizeofArray (szT L : Nat) : Nat := sizeofPackedStruct [sizeofCArray szT L]

/-- Compile gate of `cast<T>(ByteArray<L>)` (header lines 553-557):
`static_assert(sizeof(T) <= sizeof(array))` plus the `array.cdata()` call,
i.e. `cdata<0>`, adding `0 < L`.  For `ByteArray<L>`, `sizeof(array)` is
`sizeofArray 1 L`. -/
def cast_ok (szT L : Nat) : Prop :=
  szT ≤ sizeofArray 1 L ∧ dataMethAsserts L 0

/-- `cast<T>(const ByteArray<L>&)` body: return `(const T *) array.cdata()`.
No byte is moved, so the memory passes through unchanged; `szT` stands for
`sizeof(T)` and only tags which instantiation is meant. -/
def cast {L : Nat} (_szT : Nat) (arr : ByteArray L) (mem : Mem Nat) :
    Nat × Mem Nat :=
  (arr.cdata 0, mem)

/-- `cast<T>(ByteArray<L>&)` (header lines 562-566): calls the const overload
and casts away constness on the returned pointer. -/
def castMut {L : Nat} (szT : Nat) (arr : ByteArray L) (mem : Mem Nat) :
    Nat × Mem Nat :=
  cast szT arr mem

/-- The loop body of `operator^=` run for `n` iterations starting at index `i`:
`array[i] ^= v; ++i`. -/
def xorIter (base v : Nat) : Nat → Nat → Mem Nat → Mem Nat
  | _, 0, mem => mem
  | i, n+1, mem =>
      xorIter base v (i+1) n (mem.store (base + i) (Nat.xor (mem (base + i)) v))

/-- `operator^=(Array<T,L>& array, unsigned char v)` (header lines 484-490):
`for (size_t i; i < L; ++i) array[i] ^= v;`.  The loop counter `i` is never
initialized, so its starting value is indeterminate: `i0` models that
indeterminate start.  The loop then runs while `i < L`, i.e. `L - i0` times. -/
def opXorAssign {L : Nat} (a : ByteArray L) (i0 v : Nat) (mem : Mem Nat) :
    Mem Nat :=
  xorIter a._data v i0 (L - i0) mem

/-- Initial memory for the 37-byte parsing scenario: the tag source byte `1`
lives at address 100, the 32 filler source bytes `10..41` at 200..231, and the
4 id source bytes `50..53` at 300..303.  The buffer occupies 0..36. -/
def memScenario : Mem Nat := fun a =>
  if a = 100 then 1
  else if 200 ≤ a ∧ a < 232 then 10 + (a - 200)
  else if 300 ≤ a ∧ a < 304 then 50 + (a - 300)
  else 0

/-- The 37-byte buffer of the parsing scenario, at base address 0. -/
def msgBuf : ByteArray 37 := ⟨0⟩

/-- Source slice holding the tag byte. -/
def tagSrc : CSlice Nat 1 := ⟨100⟩

/-- Source slice holding the 32 filler bytes. -/
def fillerSrc : CSlice Nat 32 := ⟨200⟩

/-- Source slice holding the 4 id bytes. -/
def idSrc : CSlice Nat 4 := ⟨300⟩

/-- First chained write: `msgBuf << tagSrc`. -/
def msgStep1 : Slice Nat 36 × Mem Nat := msgBuf.writeShift tagSrc memScenario

/-- Second chained write: `(msgBuf << tagSrc) << fillerSrc`. -/
def msgStep2 : Slice Nat 4 × Mem Nat := msgStep1.1.writeShift fillerSrc msgStep1.2

/-- Third chained write: `((msgBuf << tagSrc) << fillerSrc) << idSrc`. -/
def msgStep3 : Slice Nat 0 × Mem Nat := msgStep2.1.writeShift idSrc msgStep2.2

/-- The memory after the three chained writes. -/
def memAfterWrites : Mem Nat := msgStep3.2

/-- The pointer obtained by `cast`-ing the full buffer to the message struct. -/
def msgPtr : Nat := (cast 37 msgBuf memAfterWrites).1

/-- Reading the `tag` field through the cast pointer: the matching packed
struct `{ uint8 tag; ByteArray<32> payload; ByteArray<4> id; }` places `tag`
at byte offset 0. -/
def readTag (p : Nat) (mem : Mem Nat) : Nat := mem p

/-- Reading byte `i` of the `payload` field: packed layout places `payload`
at byte offset 1. -/
def readPayload (p : Nat) (mem : Mem Nat) (i : Nat) : Nat := mem (p + 1 + i)

/-- Reading byte `j` of the `id` field: packed layout places `id` at byte
offset `1 + 32 = 33`. -/
def readMsgId (p : Nat) (mem : Mem Nat) (j : Nat) : Nat := mem (p + 33 + j)

theorem fillLoop_get {T : Type} (v : T) :
    ∀ (n p : Nat) (mem : Mem T) (a : Nat),
      fillLoop v p n mem a = if p ≤ a ∧ a < p + n then v else mem a := by
  intro n
  induction n with
  | zero =>
      intro p mem a
      simp only [fillLoop]
      rw [if_neg (by omega)]
  | succ k ih =>
      intro p mem a
      simp only [fillLoop]
      rw [ih]
      simp only [Mem.store]
      by_cases h1 : p + 1 ≤ a ∧ a < p + 1 + k
      · rw [if_pos h1, if_pos (by omega)]
      · rw [if_neg h1]
        by_cases h2 : a = p
        · rw [if_pos h2, if_pos (by omega)]
        · rw [if_neg h2, if_neg (by omega)]

theorem xorIter_get (base v : Nat) :
    ∀ (n i : Nat) (mem : Mem Nat) (a : Nat),
      xorIter base v i n mem a =
        if base + i ≤ a ∧ a < base + i + n then Nat.xor (mem a) v else mem a := by
  intro n
  induction n with
  | zero =>
      intro i mem a
      simp only [xorIter]
      rw [if_neg (by omega)]
  | succ k ih =>
      intro i mem a
      simp only [xorIter]
      rw [ih]
      simp only [Mem.store]
      by_cases h2 : a = base + i
      · subst h2
        rw [if_neg (by omega : ¬(base + (i + 1) ≤ base + i ∧
              base + i < base + (i + 1) + k)),
            if_pos rfl, if_pos (by omega)]
      · rw [if_neg h2]
        by_cases h1 : base + (i + 1) ≤ a ∧ a < base + (i + 1) + k
        · rw [if_pos h1, if_pos (by omega)]
        · rw [if_neg h1, if_neg (by omega)]

/-- The intended semantics of `operator^=` (loop counter starting at 0) is
self-inverse: this is the behavior Claim C4 ascribes to the operation. -/
theorem xorAssign_involutive {L : Nat} (a : ByteArray L) (v : Nat)
    (mem : Mem Nat) (x : Nat) :
    opXorAssign a 0 v (opXorAssign a 0 v mem) x = mem x := by
  unfold opXorAssign
  rw [xorIter_get, xorIter_get]
  by_cases h : a._data + 0 ≤ x ∧ x < a._data + 0 + (L - 0)
  · rw [if_pos h, if_pos h]
    show mem x ^^^ v ^^^ v = mem x
    rw [Nat.xor_assoc, Nat.xor_self, Nat.xor_zero]
  · rw [if_neg h, if_neg h]

/-- Claim C1: for a `Slice` or `Array` destination of length `L` and a
`CSlice` source of length `L2 ≤ L`, `assign` copies the source's `L2`
elements into indices `0..L2-1` of the destination and leaves every
destination element at an index `≥ L2` unchanged. -/
theorem assign_copies_prefix {T : Type} {L L2 : Nat} (h : L2 ≤ L)
    (dest : Slice T L) (adest : Array T L) (src : CSlice T L2)
    (mem : Mem T) (i : Nat) :
    (dest.assign src mem) (dest._data + i)
        = (if i < L2 then src.get mem i else mem (dest._data + i)) ∧
    (adest.assign src mem) (adest._data + i)
        = (if i < L2 then src.get mem i else mem (adest._data + i)) := by
  constructor
  · simp only [Slice.assign, memcpy, Slice.data, CSlice.cdata, CSlice.get]
    by_cases hc : i < L2
    · rw [if_pos (by omega), if_pos hc]
      congr 1
      omega
    · rw [if_neg (by omega), if_neg hc]
  · simp only [Array.assign, Slice.assign, Array.slice, memcpy, Slice.data,
      CSlice.cdata, CSlice.get]
    by_cases hc : i < L2
    · rw [if_pos (by omega), if_pos hc]
      congr 1
      omega
    · rw [if_neg (by omega), if_neg hc]

/-- Destination slice used by the Claim C1 witness. -/
def slW : Slice Nat 4 := ⟨⟨0⟩⟩

/-- Destination array used by the Claim C1 witness. -/
def arrW : Array Nat 4 := ⟨20⟩

/-- Source slice used by the Claim C1 witness. -/
def srcW : CSlice Nat 2 := ⟨10⟩

/-- Initial memory used by the Claim C1 witness: `9` at the source cells. -/
def memW : Mem Nat := fun a => if a = 10 ∨ a = 11 then 9 else 0

/-- Witness for Claim C1 at `L = 4`, `L2 = 2`, `i = 0`. -/
theorem assign_copies_prefix_witness :
    2 ≤ 4 ∧
    ((slW.assign srcW memW) (slW._data + 0)
        = (if 0 < 2 then srcW.get memW 0 else memW (slW._data + 0)) ∧
     (arrW.assign srcW memW) (arrW._data + 0)
        = (if 0 < 2 then srcW.get memW 0 else memW (arrW._data + 0))) :=
  ⟨by decide, assign_copies_prefix (by decide) slW arrW srcW memW 0⟩

/-- Claim C2 counterexample: at `L = 1`, `Start = 1`, `End = 1` the claimed
condition `0 ≤ Start ≤ End ≤ L` holds, yet `CSlice::cslice<1,1>` does not
compile: its `cdata<Start>` call instantiates `static_assert(Start < L)`. -/
theorem subview_gate_fails_empty_tail :
    ((1:Nat) ≤ 1 ∧ (1:Nat) ≤ 1) ∧ ¬ cslice_ok 1 1 1 := by
  unfold cslice_ok sliceMethAsserts dataMethAsserts
  omega

/-- Claim C2 (amended): the `Array` sub-view methods compile iff
`Start ≤ End ≤ L`; `CSlice::cslice` additionally requires `Start < L` (from
its `cdata<Start>` call) and `Slice::slice` additionally requires `0 < L`
(from its `data()` call).  Whenever a sub-view is formed, it has length
`End - Start` and its element `i` is the original element `Start + i`. -/
theorem subview_gates_and_elements {T : Type} {L : Nat} (st en : Nat)
    (s : CSlice T L) (sl : Slice T L) (a : Array T L) (mem : Mem T) (i : Nat) :
    (cslice_ok L st en ↔ (st ≤ en ∧ en ≤ L ∧ st < L)) ∧
    (slice_ok L st en ↔ (st ≤ en ∧ en ≤ L ∧ 0 < L)) ∧
    (array_cslice_ok L st en ↔ (st ≤ en ∧ en ≤ L)) ∧
    (array_slice_ok L st en ↔ (st ≤ en ∧ en ≤ L)) ∧
    (s.cslice st en).size = en - st ∧
    (s.cslice st en).get mem i = s.get mem (st + i) ∧
    (sl.slice st en).get mem i = sl.get mem (st + i) ∧
    (a.cslice st en).get mem i = a.get mem (st + i) ∧
    (a.slice st en).get mem i = a.get mem (st + i) := by
  refine ⟨?_, ?_, ?_, ?_, rfl, ?_, ?_, ?_, ?_⟩
  · unfold cslice_ok sliceMethAsserts dataMethAsserts
    omega
  · unfold slice_ok sliceMethAsserts dataMethAsserts
    omega
  · unfold array_cslice_ok sliceMethAsserts
    omega
  · unfold array_slice_ok sliceMethAsserts
    omega
  · simp only [CSlice.cslice, CSlice.get, CSlice.cdata]
    congr 1
    omega
  · simp only [Slice.slice, Slice.data, CSlice.get, CSlice.cdata]
    congr 1
    omega
  · simp only [Array.cslice, CSlice.get, Array.get]
    congr 1
    omega
  · simp only [Array.slice, CSlice.get, Array.get]
    congr 1
    omega

/-- Claim C3: `operator<<` copies the source into the first `L2` elements of
the destination and returns a slice of length `L1 - L2` whose data pointer is
the destination's pointer advanced by `L2` elements, for both the `Slice` and
the `Array` destination overloads. -/
theorem writeShift_remainder {T : Type} {L1 L2 : Nat} (h : L2 ≤ L1)
    (dest : Slice T L1) (adest : Array T L1) (src : CSlice T L2)
    (mem : Mem T) (i : Nat) :
    ((dest.writeShift src mem).1)._data = dest._data + L2 ∧
    ((dest.writeShift src mem).1).size = L1 - L2 ∧
    ((dest.writeShift src mem).2 (dest._data + i)
        = (if i < L2 then src.get mem i else mem (dest._data + i))) ∧
    ((adest.writeShift src mem).1)._data = adest._data + L2 ∧
    ((adest.writeShift src mem).1).size = L1 - L2 ∧
    ((adest.writeShift src mem).2 (adest._data + i)
        = (if i < L2 then src.get mem i else mem (adest._data + i))) := by
  refine ⟨?_, rfl, ?_, ?_, rfl, ?_⟩
  · simp only [Slice.writeShift, Slice.slice, Slice.data, CSlice.cdata]
    omega
  · simp only [Slice.writeShift, Slice.assign, memcpy, Slice.data,
      CSlice.cdata, CSlice.get]
    by_cases hc : i < L2
    · rw [if_pos (by omega), if_pos hc]
      congr 1
      omega
    · rw [if_neg (by omega), if_neg hc]
  · simp only [Array.writeShift, Slice.writeShift, Array.slice, Slice.slice,
      Slice.data, CSlice.cdata]
    omega
  · simp only [Array.writeShift, Slice.writeShift, Array.slice, Slice.assign,
      memcpy, Slice.data, CSlice.cdata, CSlice.get]
    by_cases hc : i < L2
    · rw [if_pos (by omega), if_pos hc]
      congr 1
      omega
    · rw [if_neg (by omega), if_neg hc]

/-- Destination slice used by the Claim C3 witness. -/
def slW3 : Slice Nat 10 := ⟨⟨0⟩⟩

/-- Destination array used by the Claim C3 witness. -/
def arrW3 : Array Nat 10 := ⟨50⟩

/-- Source slice used by the Claim C3 witness. -/
def srcW3 : CSlice Nat 3 := ⟨100⟩

/-- Initial memory used by the Claim C3 witness. -/
def memW3 : Mem Nat := fun a => a

/-- Witness for Claim C3 at `L1 = 10`, `L2 = 3`, `i = 0`. -/
theorem writeShift_remainder_witness :
    3 ≤ 10 ∧
    (((slW3.writeShift srcW3 memW3).1)._data = slW3._data + 3 ∧
     ((slW3.writeShift srcW3 memW3).1).size = 10 - 3 ∧
     ((slW3.writeShift srcW3 memW3).2 (slW3._data + 0)
        = (if 0 < 3 then srcW3.get memW3 0 else memW3 (slW3._data + 0))) ∧
     ((arrW3.writeShift srcW3 memW3).1)._data = arrW3._data + 3 ∧
     ((arrW3.writeShift srcW3 memW3).1).size = 10 - 3 ∧
     ((arrW3.writeShift srcW3 memW3).2 (arrW3._data + 0)
        = (if 0 < 3 then srcW3.get memW3 0 else memW3 (arrW3._data + 0)))) :=
  ⟨by decide, writeShift_remainder (by decide) slW3 arrW3 srcW3 memW3 0⟩

/-- Claim C4 (defect evaluation): `operator^=` never initializes its loop
counter, so its starting value is indeterminate.  On a `ByteArray<1>`
holding `[0]` with `v = 1`, a first application whose counter happens to
start at `1` (loop skipped) followed by a second whose counter starts at `0`
leaves the element at `1`, not its original value `0` — refuting the claimed
self-inverse behavior for the code as written. -/
theorem xor_uninit_counter_eval :
    opXorAssign (⟨0⟩ : ByteArray 1) 0 1
        (opXorAssign (⟨0⟩ : ByteArray 1) 1 1 (fun _ => 0)) 0
      ≠ (fun _ => (0:Nat)) 0 := by
  decide

/-- Claim C5: `cast<T>` compiles iff `sizeof(T) ≤ L` (given `sizeof(T) ≥ 1`,
as C++ guarantees), returns the buffer's base data pointer, and leaves the
memory unchanged — for both the const and the mutable overload. -/
theorem cast_gate_and_zero_copy {L : Nat} (szT : Nat) (h : 1 ≤ szT)
    (arr : ByteArray L) (mem : Mem Nat) :
    (cast_ok szT L ↔ szT ≤ L) ∧
    (cast szT arr mem).1 = arr._data ∧
    (cast szT arr mem).2 = mem ∧
    (castMut szT arr mem).1 = arr._data ∧
    (castMut szT arr mem).2 = mem := by
  refine ⟨?_, rfl, rfl, rfl, rfl⟩
  unfold cast_ok sizeofArray sizeofPackedStruct sizeofCArray dataMethAsserts
  simp only [List.sum_cons, List.sum_nil, Nat.mul_one, Nat.add_zero]
  omega

/-- Buffer used by the Claim C5 witness. -/
def arrW5 : ByteArray 8 := ⟨5⟩

/-- Memory used by the Claim C5 witness. -/
def memW5 : Mem Nat := fun _ => 0

/-- Witness for Claim C5 at `sizeof(T) = 4`, `L = 8`. -/
theorem cast_gate_and_zero_copy_witness :
    1 ≤ 4 ∧
    ((cast_ok 4 8 ↔ 4 ≤ 8) ∧
     (cast 4 arrW5 memW5).1 = arrW5._data ∧
     (cast 4 arrW5 memW5).2 = memW5 ∧
     (castMut 4 arrW5 memW5).1 = arrW5._data ∧
     (castMut 4 arrW5 memW5).2 = memW5) :=
  ⟨by decide, cast_gate_and_zero_copy 4 (by decide) arrW5 memW5⟩

/-- Claim C6: in the 37-byte parsing scenario (1-byte tag, 32-byte payload,
4-byte id), chaining `<<` for the tag, the filler and the id and then
`cast`-ing the whole buffer to the matching packed struct reads back exactly
the tag byte, the 32 filler bytes and the 4 id bytes that were written. -/
theorem message_roundtrip :
    readTag msgPtr memAfterWrites = tagSrc.get memScenario 0 ∧
    (List.range 32).map (fun i => readPayload msgPtr memAfterWrites i)
      = (List.range 32).map (fun i => fillerSrc.get memScenario i) ∧
    (List.range 4).map (fun j => readMsgId msgPtr memAfterWrites j)
      = (List.range 4).map (fun j => idSrc.get memScenario j) := by
  decide

/-- Claim C7: `sizeof(Array<T,L>)` is exactly `L * sizeof(T)` with no
padding, matching the declared `sizeBytes()` of a length-`L` view; the
header's own `static_assert` instance `sizeof(Array<char,10>) == 10` holds. -/
theorem sizeof_array_no_padding (szT L : Nat) :
    sizeofArray szT L = L * szT ∧
    sizeBytes L szT = L * szT ∧
    sizeofArray szT L = sizeBytes L szT ∧
    sizeofArray 1 10 = 10 := by
  refine ⟨?_, rfl, ?_, by decide⟩
  · simp [sizeofArray, sizeofPackedStruct, sizeofCArray]
  · simp [sizeofArray, sizeofPackedStruct, sizeofCArray, sizeBytes]

/-- Claim C8: `cdata<Offset>` / `data<Offset>` compile iff `Offset < L`
(the `DATA_METH_ASSERTS` gate) and return the base data pointer advanced by
exactly `Offset` elements, on `CSlice`, `Slice` and `Array`. -/
theorem cdata_gate_and_offset {T : Type} {L : Nat} (off : Nat)
    (s : CSlice T L) (sl : Slice T L) (a : Array T L) :
    (dataMethAsserts L off ↔ off < L) ∧
    s.cdata off = s._data + off ∧
    sl.data off = sl._data + off ∧
    a.cdata off = a._data + off :=
  ⟨Iff.rfl, rfl, rfl, rfl⟩

/-- Claim C9: `fill(v)` sets every element at indices `0..L-1` to `v` (and
touches nothing else), for both `Slice::fill` and `Array::fill`. -/
theorem fill_sets_all {T : Type} {L : Nat} (sl : Slice T L) (a : Array T L)
    (v : T) (mem : Mem T) (i : Nat) :
    (sl.fill v mem) (sl._data + i) = (if i < L then v else mem (sl._data + i)) ∧
    (a.fill v mem) (a._data + i) = (if i < L then v else mem (a._data + i)) := by
  constructor
  · simp only [Slice.fill]
    rw [fillLoop_get]
    by_cases hc : i < L
    · rw [if_pos (by omega), if_pos hc]
    · rw [if_neg (by omega), if_neg hc]
  · simp only [Array.fill, Slice.fill, Array.slice]
    rw [fillLoop_get]
    by_cases hc : i < L
    · rw [if_pos (by omega), if_pos hc]
    · rw [if_neg (by omega), if_neg hc]

/-- Claim C10: erasing a `CSlice` or an `Array` to a `CArrayPtr` via
`operator&` yields a pointer whose `size()` is `L` and whose `data()` is the
view's base data pointer, and performs no store on the underlying memory. -/
theorem erase_to_runtime_view {T : Type} {L : Nat} (s : CSlice T L)
    (a : Array T L) (mem : Mem T) :
    (s.opAmp mem).1.size = L ∧ (s.opAmp mem).1.data = s._data ∧
    (s.opAmp mem).2 = mem ∧
    (a.opAmp mem).1.size = L ∧ (a.opAmp mem).1.data = a._data ∧
    (a.opAmp mem).2 = mem :=
  ⟨rfl, rfl, rfl, rfl, rfl, rfl⟩

end safearray
